import Mathlib

/-!
Shallow embedding of the `real-time-sqlx` crate (query IR, in-memory
evaluator, SQL renderer, subscription dispatcher, operation processor),
together with theorems settling the frozen claims about it.

Conventions of the embedding:
* `serde_json::Number` keeps three variants (`PosInt(u64)`, `NegInt(i64)`,
  `Float(f64)`); finite floats are modelled as rationals (every finite `f64`
  is a rational and `f64` comparison of finite values agrees with the
  comparison of the rationals they denote).  Unsigned values are `Nat`,
  signed ones `Int`.
* Rust panics (`panic!`, `.expect`, `.unwrap` on data that can be absent)
  are modelled by `Except CheckError`; `.error` means the Rust code panics.
* The database driver and the Tauri channel transport are out of scope in
  the source as well; they enter as explicit oracles: what `fetch_optional`
  / `fetch_one` / `fetch_all` returned, and whether a channel's `send`
  succeeds.  Row types `T` are instantiated at row-maps (`JsonObject`),
  for which serde serialization is the identity, matching how the generated
  per-table code feeds serialized rows back into `Checkable::check`.
-/

namespace RealTimeSqlx

/-- Model of `serde_json::Number`: `PosInt(u64)` / `NegInt(i64)` / `Float(f64)`,
with the finite float modelled by the rational it denotes. -/
inductive JsonNumber where
  | posInt (n : Nat)
  | negInt (n : Int)
  | float (q : Rat)
deriving DecidableEq, Repr

/-- `i64::MAX`. -/
def i64Max : Nat := 9223372036854775807

namespace JsonNumber

/-- `serde_json::Number::is_f64`: true exactly for the `Float` variant. -/
def is_f64 : JsonNumber → Bool
  | float _ => true
  | _ => false

/-- `serde_json::Number::is_i64`: `PosInt(v)` iff `v <= i64::MAX`, `NegInt` always,
`Float` never. -/
def is_i64 : JsonNumber → Bool
  | posInt n => decide (n ≤ i64Max)
  | negInt _ => true
  | float _ => false

/-- The value `serde_json::Number::as_i64().unwrap()` yields; the code only calls
it under an `is_i64` guard, where this total function agrees with the source. -/
def as_i64 : JsonNumber → Int
  | posInt n => (n : Int)
  | negInt n => n
  | float _ => 0

/-- The value `serde_json::Number::as_f64().unwrap()` yields; the code only calls
it under an `is_f64` guard (both operands are `Float`), where this agrees with
the source. -/
def as_f64 : JsonNumber → Rat
  | posInt n => (n : Rat)
  | negInt n => (n : Rat)
  | float q => q

end JsonNumber

/-- Model of `serde_json::Value`. -/
inductive Json where
  | null
  | bool (b : Bool)
  | number (n : JsonNumber)
  | str (s : String)
  | arr (elems : List Json)
  | obj (fields : List (String × Json))

/-- `serde_json::Map<String, Value>` (a row-map): association list looked up
by key. -/
def JsonObject : Type := List (String × Json)

/-- `serde_json::Map::get`. -/
def JsonObject.get (object : JsonObject) (key : String) : Option Json :=
  (object.find? (fun p => p.1 == key)).map (fun p => p.2)

/-- `FinalType` of `queries/serialize.rs`: the scalar values bindable to SQL. -/
inductive FinalType where
  | number (n : JsonNumber)
  | str (s : String)
  | bool (b : Bool)
  | null
deriving DecidableEq, Repr

/-- `TryFrom<serde_json::Value> for FinalType`: total case analysis, arrays and
objects are `IncompatibleValue` errors (`none` here). -/
def FinalType.try_from : Json → Option FinalType
  | Json.number n => some (FinalType.number n)
  | Json.str s => some (FinalType.str s)
  | Json.bool b => some (FinalType.bool b)
  | Json.null => some FinalType.null
  | Json.arr _ => none
  | Json.obj _ => none

/-- `ConstraintValue`: one scalar or a list of scalars. -/
inductive ConstraintValue where
  | final (value : FinalType)
  | list (values : List FinalType)
deriving DecidableEq, Repr

/-- The nine `Operator`s. -/
inductive Operator where
  | equal
  | lessThan
  | greaterThan
  | lessThanOrEqual
  | greaterThanOrEqual
  | notEqual
  | inOp
  | like
  | ilike
deriving DecidableEq, Repr

/-- `Display for Operator`: the exact wire strings. -/
def Operator.display : Operator → String
  | .equal => "="
  | .lessThan => "<"
  | .greaterThan => ">"
  | .lessThanOrEqual => "<="
  | .greaterThanOrEqual => ">="
  | .notEqual => "!="
  | .inOp => "in"
  | .like => "like"
  | .ilike => "ilike"

/-- `Constraint { column, operator, value }`. -/
structure Constraint where
  column : String
  operator : Operator
  value : ConstraintValue

/-- `Condition`: recursive tree of constraints. -/
inductive Condition where
  | single (constraint : Constraint)
  | and (conditions : List Condition)
  | or (conditions : List Condition)

/-- `ReturnType`. -/
inductive ReturnType where
  | single
  | many
deriving DecidableEq, Repr

/-- `OrderBy`. -/
inductive OrderBy where
  | asc (column : String)
  | desc (column : String)

/-- `PaginateOptions`. -/
structure PaginateOptions where
  per_page : Nat
  offset : Option Nat
  order_by : Option OrderBy

/-- `QueryTree`. -/
structure QueryTree where
  return_type : ReturnType
  table : String
  condition : Option Condition
  paginate : Option PaginateOptions

/-! ### `utils.rs`: the LIKE matcher -/

/-- The inner `match_helper` of `utils::sql_like`, on character lists:
`%` matches zero or more characters, `_` exactly one (when the value is
non-empty), any other filter character matches only itself.  The Rust
recursion is replayed literally; it terminates because each call shrinks
the combined length of filter and value. -/
def match_helper : List Char → List Char → Bool
  | [], [] => true
  | first :: rest, value =>
    if first = '%' then
      match_helper rest value ||
        (match value with
          | [] => false
          | _ :: v_rest => match_helper (first :: rest) v_rest)
    else
      match value with
      | [] => false
      | v_first :: v_rest =>
        if first = '_' then match_helper rest v_rest
        else if first = v_first then match_helper rest v_rest
        else false
  | [], _ :: _ => false
termination_by f v => f.length + v.length
decreasing_by all_goals simp_arith

/-- `utils::sql_like`: the first argument is the filter (pattern), the second
the value (text); both are taken as their character sequences. -/
def sql_like (filter value : String) : Bool :=
  match_helper filter.toList value.toList

/-- Rust `str::to_lowercase`, character-wise (faithful on ASCII, which is all
the development evaluates it on). -/
def to_lowercase (s : String) : String := String.mk (s.toList.map Char.toLower)

/-- `utils::sql_ilike`: `sql_like` on the lowercased operands. -/
def sql_ilike (filter value : String) : Bool :=
  sql_like (to_lowercase filter) (to_lowercase value)

/-! ### `queries.rs`: comparison semantics and the in-memory evaluator -/

namespace FinalType

/-- `FinalType::equals` (`&self == other`). -/
def equals : FinalType → FinalType → Bool
  | number n, number m =>
    if n.is_f64 && m.is_f64 then decide (n.as_f64 = m.as_f64)
    else if n.is_i64 && m.is_i64 then decide (n.as_i64 = m.as_i64)
    else false
  | str s, str t => s == t
  | bool b, bool c => b == c
  | null, null => true
  | _, _ => false

/-- `FinalType::less_than` (`&self < other`). -/
def less_than : FinalType → FinalType → Bool
  | number n, number m =>
    if n.is_f64 && m.is_f64 then decide (n.as_f64 < m.as_f64)
    else if n.is_i64 && m.is_i64 then decide (n.as_i64 < m.as_i64)
    else false
  | str s, str t => decide (s < t)
  | bool b, bool c => !b && c
  | _, _ => false

/-- `FinalType::greater_than` (`&self > other`). -/
def greater_than : FinalType → FinalType → Bool
  | number n, number m =>
    if n.is_f64 && m.is_f64 then decide (n.as_f64 > m.as_f64)
    else if n.is_i64 && m.is_i64 then decide (n.as_i64 > m.as_i64)
    else false
  | str s, str t => decide (s > t)
  | bool b, bool c => !c && b
  | _, _ => false

end FinalType

/-- A Rust panic reachable from `Checkable::check`; `.error` of one of these
models the corresponding `panic!` / `.expect`. -/
inductive CheckError where
  /-- `"Column not found in JSON object"`. -/
  | columnNotFound (column : String)
  /-- `"Incompatible value for column: {value}"` (the row value is a JSON
  array or object). -/
  | incompatibleValue (column : String)
  /-- `FinalType::compare`'s `panic!("Invalid operator ...")` arm (only the
  `In` operator reaches it). -/
  | invalidOperator (operator : Operator)
  /-- `ConstraintValue::compare`'s `panic!("Invalid operator ... for list
  comparison")` arm. -/
  | invalidListOperator (operator : Operator)
deriving DecidableEq, Repr

/-- `FinalType::compare`: self is the left side, `other` the right side.
The `In` operator falls into the `panic!` arm. -/
def FinalType.compare (self other : FinalType) : Operator → Except CheckError Bool
  | .equal => .ok (self.equals other)
  | .lessThan => .ok (self.less_than other)
  | .greaterThan => .ok (self.greater_than other)
  | .lessThanOrEqual => .ok (self.less_than other || self.equals other)
  | .greaterThanOrEqual => .ok (self.greater_than other || self.equals other)
  | .notEqual => .ok (!self.equals other)
  | .like => .ok (match self, other with
      | .str s, .str t => sql_like t s
      | _, _ => false)
  | .ilike => .ok (match self, other with
      | .str s, .str t => sql_ilike t s
      | _, _ => false)
  | .inOp => .error (.invalidOperator .inOp)

/-- `ConstraintValue::compare`: a `Final` value delegates to
`FinalType::compare` with itself as `self`; a `List` is only legal with `In`
(any element `equals` the other side — `FinalType::compare` with `Equal`
is `equals` by its first arm), every other operator panics. -/
def ConstraintValue.compare (self : ConstraintValue) (other : FinalType)
    (operator : Operator) : Except CheckError Bool :=
  match self with
  | .final final_type => final_type.compare other operator
  | .list values =>
    match operator with
    | .inOp => .ok (values.any (fun value => value.equals other))
    | op => .error (.invalidListOperator op)

/-- `Checkable::check for Constraint`: read the row's column (panic when
absent), convert to `FinalType` (panic on array/object), then
`self.value.compare(&final_type, &self.operator)`. -/
def Constraint.check (self : Constraint) (object : JsonObject) :
    Except CheckError Bool :=
  match object.get self.column with
  | none => .error (.columnNotFound self.column)
  | some value =>
    match FinalType.try_from value with
    | none => .error (.incompatibleValue self.column)
    | some final_type => self.value.compare final_type self.operator

mutual

/-- `Checkable::check for Condition`: `And`/`Or` loop over the children and
short-circuit. -/
def Condition.check : Condition → JsonObject → Except CheckError Bool
  | .single constraint, object => constraint.check object
  | .and conditions, object => Condition.check_and conditions object
  | .or conditions, object => Condition.check_or conditions object

/-- The `And` loop: return `false` at the first non-matching child. -/
def Condition.check_and : List Condition → JsonObject → Except CheckError Bool
  | [], _ => .ok true
  | condition :: rest, object => do
    let b ← condition.check object
    if b then Condition.check_and rest object else .ok false

/-- The `Or` loop: return `true` at the first matching child. -/
def Condition.check_or : List Condition → JsonObject → Except CheckError Bool
  | [], _ => .ok false
  | condition :: rest, object => do
    let b ← condition.check object
    if b then .ok true else Condition.check_or rest object

end

/-- `Checkable::check for QueryTree`: the condition when present, else `true`. -/
def QueryTree.check (self : QueryTree) (object : JsonObject) :
    Except CheckError Bool :=
  match self.condition with
  | some condition => condition.check object
  | none => .ok true

/-! ### `utils.rs` / `database.rs`: the SQL renderer -/

/-- Rust `Vec<String>::join(sep)`: the separator between consecutive items. -/
def join_strings : List String → String → String
  | [], _ => ""
  | [s], _ => s
  | s :: rest, sep => s ++ sep ++ join_strings rest sep

/-- `utils::placeholders`: `(?, ?, …, ?)` with `count` question marks. -/
def placeholders (count : Nat) : String :=
  "(" ++ join_strings (List.replicate count "?") ", " ++ ")"

/-- `utils::sanitize_identifier`: remove every character that is neither
alphanumeric nor `_` (the alphanumeric predicate is modelled on ASCII; the
development never relies on its value outside ASCII). -/
def sanitize_identifier (s : String) : String :=
  String.mk (s.toList.filter (fun c => c.isAlphanum || c = '_'))

/-- `Traversable for FinalType`: one placeholder, itself as the argument. -/
def FinalType.traverse (self : FinalType) : String × List FinalType :=
  ("?", [self])

/-- `Traversable for ConstraintValue`. -/
def ConstraintValue.traverse : ConstraintValue → String × List FinalType
  | .list values => (placeholders values.length, values)
  | .final value => value.traverse

/-- `Traversable for Constraint`: `format!("\"{}\" {} {}", column, operator,
values_string)` — note the column is NOT passed through
`sanitize_identifier` here. -/
def Constraint.traverse (self : Constraint) : String × List FinalType :=
  let p := self.value.traverse
  ("\"" ++ self.column ++ "\" " ++ self.operator.display ++ " " ++ p.1, p.2)

mutual

/-- `Traversable for Condition`. -/
def Condition.traverse : Condition → String × List FinalType
  | .single constraint => constraint.traverse
  | .or conditions => reduce_constraints_list conditions " OR "
  | .and conditions => reduce_constraints_list conditions " AND "

/-- `database::reduce_constraints_list`: render every child, join the strings
with the separator inside parentheses, concatenate the value lists in order. -/
def reduce_constraints_list (conditions : List Condition) (sep : String) :
    String × List FinalType :=
  let p := traverse_conditions conditions
  ("(" ++ join_strings p.1 sep ++ ")", p.2)

/-- The `for_each` loop inside `reduce_constraints_list`: the list of child
strings and the concatenated child values. -/
def traverse_conditions : List Condition → List String × List FinalType
  | [] => ([], [])
  | condition :: rest =>
    let p := condition.traverse
    let q := traverse_conditions rest
    (p.1 :: q.1, p.2 ++ q.2)

end

/-- `Traversable for PaginateOptions`: `ORDER BY … `, `LIMIT ? `, optional
`OFFSET ? `, with `per_page` and `offset` pushed as number arguments. -/
def PaginateOptions.traverse (self : PaginateOptions) : String × List FinalType :=
  let order_string :=
    match self.order_by with
    | some (.asc col) => "ORDER BY " ++ sanitize_identifier col ++ " ASC "
    | some (.desc col) => "ORDER BY " ++ sanitize_identifier col ++ " DESC "
    | none => "ORDER BY id DESC "
  let base := order_string ++ "LIMIT ? "
  let values := [FinalType.number (.posInt self.per_page)]
  match self.offset with
  | some offset => (base ++ "OFFSET ? ", values ++ [FinalType.number (.posInt offset)])
  | none => (base, values)

/-- `database::prepare_sqlx_query`: `SELECT * FROM <sanitized table>`, then
` WHERE <condition>` when present, then a space and the pagination when
present; arguments are collected in the same order. -/
def prepare_sqlx_query (query : QueryTree) : String × List FinalType :=
  let base := "SELECT * FROM " ++ sanitize_identifier query.table
  let with_condition :=
    match query.condition with
    | some condition =>
      let p := condition.traverse
      (base ++ " WHERE " ++ p.1, p.2)
    | none => (base, ([] : List FinalType))
  match query.paginate with
  | some paginate =>
    let p := paginate.traverse
    (with_condition.1 ++ " " ++ p.1, with_condition.2 ++ p.2)
  | none => with_condition

/-- The number of `?` placeholders in a rendered SQL string. -/
def count_qmarks (s : String) : Nat := s.toList.count '?'

/-! ### `backends/tauri.rs`: the subscription dispatcher -/

/-- `OperationNotification<T>` with the row type instantiated at row-maps. -/
inductive OperationNotification where
  | create (table : String) (data : JsonObject)
  | createMany (table : String) (data : List JsonObject)
  | update (table : String) (id : FinalType) (data : JsonObject)
  | delete (table : String) (id : FinalType) (data : JsonObject)

/-- One entry of the dispatcher's `HashMap<String, (QueryTree, Channel)>`,
in iteration order; `send_ok` is the transport oracle: whether this
channel's (single) `send` during the fan-out succeeds. -/
structure ChannelEntry where
  key : String
  query : QueryTree
  send_ok : Bool

/-- The inner row loop of the `CreateMany` arm: the sub-list of rows the
query matches, in the original order. -/
def check_rows (query : QueryTree) : List JsonObject → Except CheckError (List JsonObject)
  | [] => .ok []
  | row :: rest => do
    let does_match ← query.check row
    let matched ← check_rows query rest
    if does_match then .ok (row :: matched) else .ok matched

/-- The rows of `check_rows` when it succeeds (used only to state theorems
about runs in which no check panicked). -/
def matched_rows (query : QueryTree) (rows : List JsonObject) : List JsonObject :=
  ((check_rows query rows).toOption).getD []

/-- Whether a check succeeded with `true` (used to state theorems about
runs in which no check panicked). -/
def check_passes (query : QueryTree) (object : JsonObject) : Bool :=
  match query.check object with
  | .ok true => true
  | _ => false

/-- The `Create` / `Delete` arm of `process_channel_event`: send the full
notification to every matching subscription; a failed send records the key. -/
def fanout_single (operation : OperationNotification) (object : JsonObject) :
    List ChannelEntry →
    Except CheckError (List (String × OperationNotification) × List String)
  | [] => .ok ([], [])
  | entry :: rest => do
    let does_match ← entry.query.check object
    let p ← fanout_single operation object rest
    if does_match then
      .ok ((entry.key, operation) :: p.1,
           if entry.send_ok then p.2 else entry.key :: p.2)
    else .ok p

/-- The `Update` arm: every subscription gets exactly one message — the update
itself when the query matches the new row, else a synthetic `Delete` with the
same table, id, and the new row as data. -/
def fanout_update (table : String) (id : FinalType) (data : JsonObject) :
    List ChannelEntry →
    Except CheckError (List (String × OperationNotification) × List String)
  | [] => .ok ([], [])
  | entry :: rest => do
    let does_match ← entry.query.check data
    let p ← fanout_update table id data rest
    let message :=
      if does_match then OperationNotification.update table id data
      else OperationNotification.delete table id data
    .ok ((entry.key, message) :: p.1,
         if entry.send_ok then p.2 else entry.key :: p.2)

/-- The `CreateMany` arm: per subscription, the sub-vector of matching rows;
non-empty matches are sent as a synthetic `CreateMany` whose table is the
string literal `"todos"` (exactly as in the source). -/
def fanout_create_many (objects : List JsonObject) :
    List ChannelEntry →
    Except CheckError (List (String × OperationNotification) × List String)
  | [] => .ok ([], [])
  | entry :: rest => do
    let matching ← check_rows entry.query objects
    let p ← fanout_create_many objects rest
    if matching.isEmpty then .ok p
    else
      .ok ((entry.key, OperationNotification.createMany "todos" matching) :: p.1,
           if entry.send_ok then p.2 else entry.key :: p.2)

/-- `backends::tauri::process_channel_event`: fan a notification out over the
channel map; the result is the list of attempted sends `(key, message)` in
iteration order and the list of keys whose send failed (returned for
pruning).  `.error` models a panic inside a `check`. -/
def process_channel_event (channels : List ChannelEntry) :
    OperationNotification →
    Except CheckError (List (String × OperationNotification) × List String)
  | .create table data => fanout_single (.create table data) data channels
  | .delete table id data => fanout_single (.delete table id data) data channels
  | .update table id data => fanout_update table id data channels
  | .createMany _ data => fanout_create_many data channels

/-! ### `database/sqlite.rs`: the operation processor -/

/-- `GranularOperation` with JSON row payloads. -/
inductive GranularOperation where
  | create (table : String) (data : JsonObject)
  | createMany (table : String) (data : List JsonObject)
  | update (table : String) (id : FinalType) (data : JsonObject)
  | delete (table : String) (id : FinalType)

/-- The database driver's reply, an external oracle: what `fetch_one`,
`fetch_all` and `fetch_optional` returned for the prepared statement (rows
already decoded to row-maps; `T::from_row` is the identity there). -/
structure DbResponse where
  fetched_one : JsonObject
  fetched_all : List JsonObject
  fetched_optional : Option JsonObject

/-- `sqlite::granular_operation_sqlite`: statement preparation and binding
happen before execution; afterwards `Create`/`CreateMany` wrap the returned
row(s), while `Update`/`Delete` return `none` (no notification) when
`fetch_optional` found no row, and otherwise wrap the operation's table, the
original id and the returned row. -/
def granular_operation_sqlite (operation : GranularOperation) (db : DbResponse) :
    Option OperationNotification :=
  match operation with
  | .create table _ => some (.create table db.fetched_one)
  | .createMany table _ => some (.createMany table db.fetched_all)
  | .update table id _ =>
    match db.fetched_optional with
    | none => none
    | some row => some (.update table id row)
  | .delete table id =>
    match db.fetched_optional with
    | none => none
    | some row => some (.delete table id row)

/-- The dispatch step of the generated `process_operation` (backends/tauri
macros): the notification, when there is one, is fed to
`process_channel_event`; a `none` result dispatches nothing. -/
def process_operation (operation : GranularOperation) (db : DbResponse)
    (channels : List ChannelEntry) :
    Except CheckError (List (String × OperationNotification) × List String) :=
  match granular_operation_sqlite operation db with
  | none => .ok ([], [])
  | some notification => process_channel_event channels notification

/-! ### Specification-side definitions (stated from the spec's words, to be
compared with the code's behaviour) -/

/-- Declarative LIKE semantics, from the spec's words: `%` matches any
sequence of zero or more characters, `_` exactly one character, and every
other pattern character matches only itself; the whole value must be
consumed. -/
inductive LikeMatches : List Char → List Char → Prop where
  | nil : LikeMatches [] []
  | percent (rest consumed suffix : List Char) :
      LikeMatches rest suffix → LikeMatches ('%' :: rest) (consumed ++ suffix)
  | underscore (c : Char) (rest v : List Char) :
      LikeMatches rest v → LikeMatches ('_' :: rest) (c :: v)
  | lit (c : Char) (rest v : List Char) : c ≠ '%' → c ≠ '_' →
      LikeMatches rest v → LikeMatches (c :: rest) (c :: v)

mutual

/-- All constraints occurring in a condition tree, left to right. -/
def Condition.constraints : Condition → List Constraint
  | .single constraint => [constraint]
  | .and conditions => conditions_constraints conditions
  | .or conditions => conditions_constraints conditions

/-- All constraints occurring in a list of condition trees. -/
def conditions_constraints : List Condition → List Constraint
  | [] => []
  | condition :: rest => condition.constraints ++ conditions_constraints rest

end

/-- All constraints of a query tree's condition (none when absent). -/
def QueryTree.constraints (query : QueryTree) : List Constraint :=
  match query.condition with
  | some condition => condition.constraints
  | none => []

/-- The four panic triggers of `Checkable::check for Constraint` named by the
claim: absent column, non-scalar row value, `in` with a single scalar, a list
value with an operator other than `in`. -/
def Constraint.panics_on (c : Constraint) (object : JsonObject) : Prop :=
  object.get c.column = none ∨
  (∃ v, object.get c.column = some v ∧ FinalType.try_from v = none) ∨
  (c.operator = .inOp ∧ ∃ f, c.value = .final f) ∨
  (c.operator ≠ .inOp ∧ ∃ l, c.value = .list l)

/-- The claim's precondition for a constraint: its column is present with a
scalar JSON value, and the operator/value shapes agree (`in` exactly when the
value is a list). -/
def Constraint.safe_for (c : Constraint) (object : JsonObject) : Prop :=
  (∃ v f, object.get c.column = some v ∧ FinalType.try_from v = some f) ∧
  (c.operator = .inOp ↔ ∃ l, c.value = .list l)

/-- Whether a `serde_json` number is of integer kind (`PosInt` or `NegInt`). -/
def JsonNumber.is_integer : JsonNumber → Bool
  | .posInt _ => true
  | .negInt _ => true
  | .float _ => false

/-- The mathematical integer an integer-kind number denotes. -/
def JsonNumber.integer_value : JsonNumber → Int
  | .posInt n => (n : Int)
  | .negInt n => n
  | .float _ => 0

/-- The representation invariant of `serde_json::Number`: `PosInt` holds a
`u64`, `NegInt` a negative `i64`. -/
def JsonNumber.wf : JsonNumber → Prop
  | .posInt n => n < 2 ^ 64
  | .negInt n => -(2 ^ 63) ≤ n ∧ n < 0
  | .float _ => True

/-- The representation invariant of a scalar. -/
def FinalType.wf : FinalType → Prop
  | .number n => n.wf
  | _ => True

/-- Scalar equality as the claim states it: same kind and equal within the
kind — integer numbers numerically, float numbers numerically, mixed number
kinds unequal, strings and bools by equality, `Null = Null` true, different
variants unequal. -/
def claimed_scalar_eq : FinalType → FinalType → Prop
  | .number n, .number m =>
    (n.is_integer = true ∧ m.is_integer = true ∧ n.integer_value = m.integer_value) ∨
    (n.is_f64 = true ∧ m.is_f64 = true ∧ n.as_f64 = m.as_f64)
  | .str s, .str t => s = t
  | .bool b, .bool c => b = c
  | .null, .null => True
  | _, _ => False

/-- Scalar equality as amended: as claimed, except that two integer numbers
are equal only when both also fit in `i64` (are at most `i64::MAX`); an
unsigned integer above `i64::MAX` is equal to nothing, itself included. -/
def amended_scalar_eq : FinalType → FinalType → Prop
  | .number n, .number m =>
    (n.is_integer = true ∧ m.is_integer = true ∧
      n.integer_value ≤ (i64Max : Int) ∧ m.integer_value ≤ (i64Max : Int) ∧
      n.integer_value = m.integer_value) ∨
    (n.is_f64 = true ∧ m.is_f64 = true ∧ n.as_f64 = m.as_f64)
  | .str s, .str t => s = t
  | .bool b, .bool c => b = c
  | .null, .null => True
  | _, _ => False

/-! ## Theorems -/

/-! ### The LIKE matcher agrees with its declarative semantics (C5) -/
theorem match_helper_nil_nil : match_helper [] [] = true := by
  simp [match_helper]

theorem match_helper_nil_cons (c : Char) (v : List Char) :
    match_helper [] (c :: v) = false := by
  simp [match_helper]

theorem match_helper_percent_nil (rest : List Char) :
    match_helper ('%' :: rest) [] = match_helper rest [] := by
  simp [match_helper]

theorem match_helper_percent_cons (rest : List Char) (c : Char) (v : List Char) :
    match_helper ('%' :: rest) (c :: v) =
      (match_helper rest (c :: v) || match_helper ('%' :: rest) v) := by
  simp [match_helper]

theorem match_helper_cons_nil (first : Char) (rest : List Char) (h : first ≠ '%') :
    match_helper (first :: rest) [] = false := by
  simp [match_helper, h]

theorem match_helper_underscore_cons (rest : List Char) (c : Char) (v : List Char) :
    match_helper ('_' :: rest) (c :: v) = match_helper rest v := by
  simp [match_helper]

theorem match_helper_lit_cons (first : Char) (rest : List Char) (c : Char) (v : List Char)
    (h1 : first ≠ '%') (h2 : first ≠ '_') :
    match_helper (first :: rest) (c :: v) =
      if first = c then match_helper rest v else false := by
  simp [match_helper, h1, h2]

theorem LikeMatches.cons_of_percent {rest v : List Char} (c : Char)
    (h : LikeMatches ('%' :: rest) v) : LikeMatches ('%' :: rest) (c :: v) := by
  cases h with
  | percent rest consumed suffix h' =>
    exact LikeMatches.percent rest (c :: consumed) suffix h'
  | lit c' _ _ hne _ _ => exact absurd rfl hne

theorem match_helper_sound (f v : List Char) (h : match_helper f v = true) :
    LikeMatches f v := by
  induction f, v using match_helper.induct with
  | case1 => exact LikeMatches.nil
  | case2 rest value ih1 ih2 =>
    cases value with
    | nil =>
      rw [match_helper_percent_nil] at h
      exact LikeMatches.percent rest [] [] (ih1 h)
    | cons c v_rest =>
      rw [match_helper_percent_cons] at h
      rcases Bool.or_eq_true_iff.mp h with h' | h'
      · exact LikeMatches.percent rest [] (c :: v_rest) (ih1 h')
      · exact LikeMatches.cons_of_percent c (ih2 h')
  | case3 first rest h1 =>
    rw [match_helper_cons_nil first rest h1] at h
    exact absurd h (by simp)
  | case4 rest c v_rest _ ih =>
    rw [match_helper_underscore_cons] at h
    exact LikeMatches.underscore c rest v_rest (ih h)
  | case5 first rest h1 v_rest h2 ih =>
    rw [match_helper_lit_cons first rest first v_rest h1 h2] at h
    simp only [if_pos rfl] at h
    exact LikeMatches.lit first rest v_rest h1 h2 (ih h)
  | case6 first rest h1 c v_rest h2 h3 =>
    rw [match_helper_lit_cons first rest c v_rest h1 h2] at h
    simp only [if_neg h3] at h
    exact absurd h (by simp)
  | case7 c v => rw [match_helper_nil_cons] at h; exact absurd h (by simp)

theorem match_helper_percent_append (rest suffix : List Char)
    (h : match_helper rest suffix = true) (consumed : List Char) :
    match_helper ('%' :: rest) (consumed ++ suffix) = true := by
  induction consumed with
  | nil =>
    cases suffix with
    | nil => rw [List.nil_append, match_helper_percent_nil]; exact h
    | cons c v => rw [List.nil_append, match_helper_percent_cons, h, Bool.true_or]
  | cons c consumed ih =>
    rw [List.cons_append, match_helper_percent_cons, ih, Bool.or_true]

theorem match_helper_complete {f v : List Char} (h : LikeMatches f v) :
    match_helper f v = true := by
  induction h with
  | nil => exact match_helper_nil_nil
  | percent rest consumed suffix _ ih => exact match_helper_percent_append rest suffix ih consumed
  | underscore c rest v _ ih => rw [match_helper_underscore_cons]; exact ih
  | lit c rest v h1 h2 _ ih => rw [match_helper_lit_cons c rest c v h1 h2, if_pos rfl]; exact ih

theorem sql_like_iff (filter value : String) :
    sql_like filter value = true ↔ LikeMatches filter.toList value.toList :=
  ⟨match_helper_sound filter.toList value.toList, match_helper_complete⟩

/-- **C5.** `sql_like(pattern, text)` is total (a Lean function), returns
`true` exactly when the pattern matches the whole text under the declarative
semantics (`%` any sequence, `_` exactly one character, other characters
themselves); `sql_ilike` is `sql_like` of the lowercased operands; and the
four quoted evaluations hold. -/
theorem sql_like_semantics :
    (∀ filter value : String,
      sql_like filter value = true ↔ LikeMatches filter.toList value.toList) ∧
    (∀ filter value : String,
      sql_ilike filter value = sql_like (to_lowercase filter) (to_lowercase value)) ∧
    sql_like "h%o" "hello" = true ∧
    sql_like "he_lo" "hello" = true ∧
    sql_like "h%o" "hi" = false ∧
    sql_ilike "HE%" "hello world" = true := by
  refine ⟨sql_like_iff, fun _ _ => rfl, ?_, ?_, ?_, ?_⟩
  · simp [sql_like, match_helper]
  · simp [sql_like, match_helper]
  · simp [sql_like, match_helper]
  · show sql_like (to_lowercase "HE%") (to_lowercase "hello world") = true
    rw [show to_lowercase "HE%" = "he%" from rfl,
        show to_lowercase "hello world" = "hello world" from rfl]
    simp [sql_like, match_helper]

/-! ### Scalar equality (C8) -/
/-- **C8 (amended).** Scalar equality is kind-wise: floats with floats
numerically, integers with integers numerically provided both fit in `i64`
(at most `i64::MAX`), mixed number kinds never equal, strings and bools by
equality, `Null = Null` true, distinct variants unequal.  The hypotheses are
the representation invariants of `serde_json::Number` (`u64` / negative
`i64`). -/
theorem equals_iff_amended (x y : FinalType) (hx : x.wf) (hy : y.wf) :
    FinalType.equals x y = true ↔ amended_scalar_eq x y := by
  cases x with
  | number n =>
    cases y with
    | number m =>
      cases n <;> cases m <;>
        simp_all [FinalType.equals, amended_scalar_eq, JsonNumber.is_f64,
          JsonNumber.is_i64, JsonNumber.as_f64, JsonNumber.as_i64,
          JsonNumber.is_integer, JsonNumber.integer_value, JsonNumber.wf,
          FinalType.wf, i64Max] <;>
        omega
    | str _ => simp [FinalType.equals, amended_scalar_eq]
    | bool _ => simp [FinalType.equals, amended_scalar_eq]
    | null => simp [FinalType.equals, amended_scalar_eq]
  | str s =>
    cases y <;> simp [FinalType.equals, amended_scalar_eq]
  | bool b =>
    cases y <;> simp [FinalType.equals, amended_scalar_eq]
  | null =>
    cases y <;> simp [FinalType.equals, amended_scalar_eq]

/-- Witness for C8's amended theorem at `1 = 1`. -/
theorem equals_iff_amended_witness :
    FinalType.equals (.number (.posInt 1)) (.number (.posInt 1)) = true ↔
      amended_scalar_eq (.number (.posInt 1)) (.number (.posInt 1)) :=
  equals_iff_amended (.number (.posInt 1)) (.number (.posInt 1))
    (by norm_num [FinalType.wf, JsonNumber.wf])
    (by norm_num [FinalType.wf, JsonNumber.wf])

/-- **C8 (counterexample).** At `x = y = Number(PosInt(2^63))` — a legal
`u64` above `i64::MAX` — the claim's reading says the two integer numbers
are equal (same kind, same numeric value), but `FinalType::equals` returns
`false` because `is_i64` fails for both. -/
theorem equals_claim_counterexample :
    FinalType.wf (.number (.posInt 9223372036854775808)) ∧
    claimed_scalar_eq (.number (.posInt 9223372036854775808))
      (.number (.posInt 9223372036854775808)) ∧
    FinalType.equals (.number (.posInt 9223372036854775808))
      (.number (.posInt 9223372036854775808)) = false := by
  refine ⟨by norm_num [FinalType.wf, JsonNumber.wf], ?_, by decide⟩
  exact Or.inl ⟨rfl, rfl, rfl⟩

/-! ### Placeholder counting (C6) -/
theorem count_qmarks_append (a b : String) :
    count_qmarks (a ++ b) = count_qmarks a + count_qmarks b := by
  simp [count_qmarks, String.toList, String.data_append, List.count_append]

theorem count_qmarks_join (l : List String) (sep : String)
    (hsep : count_qmarks sep = 0) :
    count_qmarks (join_strings l sep) = (l.map count_qmarks).sum := by
  induction l with
  | nil => simp [join_strings, count_qmarks]
  | cons s rest ih =>
    cases rest with
    | nil => simp [join_strings]
    | cons t rest' =>
      rw [show join_strings (s :: t :: rest') sep = s ++ sep ++ join_strings (t :: rest') sep
            from rfl,
          count_qmarks_append, count_qmarks_append, hsep, ih]
      simp [List.map_cons, List.sum_cons]

theorem count_qmarks_placeholders (n : Nat) :
    count_qmarks (placeholders n) = n := by
  rw [placeholders, count_qmarks_append, count_qmarks_append,
      count_qmarks_join _ _ (by decide)]
  simp [count_qmarks]

theorem count_qmarks_sanitize (s : String) :
    count_qmarks (sanitize_identifier s) = 0 := by
  simp only [count_qmarks, sanitize_identifier, String.toList]
  rw [List.count_eq_zero]
  intro h
  have := List.of_mem_filter h
  simp at this

theorem count_qmarks_display (op : Operator) :
    count_qmarks op.display = 0 := by
  cases op <;> decide

theorem count_qmarks_constraint (c : Constraint)
    (hcol : count_qmarks c.column = 0) :
    count_qmarks c.traverse.1 = c.traverse.2.length := by
  obtain ⟨column, operator, value⟩ := c
  simp only at hcol
  cases value with
  | final v =>
    simp [Constraint.traverse, ConstraintValue.traverse, FinalType.traverse,
      count_qmarks_append, hcol, count_qmarks_display]
    decide
  | list values =>
    simp [Constraint.traverse, ConstraintValue.traverse,
      count_qmarks_append, hcol, count_qmarks_display, count_qmarks_placeholders]
    decide

theorem count_qmarks_condition_parts :
    (∀ c : Condition, (∀ k ∈ c.constraints, count_qmarks k.column = 0) →
      count_qmarks c.traverse.1 = c.traverse.2.length) ∧
    (∀ (conds : List Condition) (sep : String), count_qmarks sep = 0 →
      (∀ k ∈ conditions_constraints conds, count_qmarks k.column = 0) →
      count_qmarks (reduce_constraints_list conds sep).1 =
        (reduce_constraints_list conds sep).2.length) ∧
    (∀ conds : List Condition,
      (∀ k ∈ conditions_constraints conds, count_qmarks k.column = 0) →
      ((traverse_conditions conds).1.map count_qmarks).sum =
        (traverse_conditions conds).2.length) := by
  refine Condition.traverse.mutual_induct
    (fun c => (∀ k ∈ c.constraints, count_qmarks k.column = 0) →
      count_qmarks c.traverse.1 = c.traverse.2.length)
    (fun conds sep => count_qmarks sep = 0 →
      (∀ k ∈ conditions_constraints conds, count_qmarks k.column = 0) →
      count_qmarks (reduce_constraints_list conds sep).1 =
        (reduce_constraints_list conds sep).2.length)
    (fun conds => (∀ k ∈ conditions_constraints conds, count_qmarks k.column = 0) →
      ((traverse_conditions conds).1.map count_qmarks).sum =
        (traverse_conditions conds).2.length)
    ?_ ?_ ?_ ?_ ?_ ?_
  · intro constraint h
    simp only [Condition.traverse]
    exact count_qmarks_constraint constraint
      (h constraint (by simp [Condition.constraints]))
  · intro conditions ih h
    simp only [Condition.traverse]
    exact ih (by decide) (by simpa [Condition.constraints] using h)
  · intro conditions ih h
    simp only [Condition.traverse]
    exact ih (by decide) (by simpa [Condition.constraints] using h)
  · intro conditions sep ih hsep h
    simp only [reduce_constraints_list]
    rw [count_qmarks_append, count_qmarks_append,
        count_qmarks_join _ _ hsep, ih h]
    have h1 : count_qmarks "(" = 0 := rfl
    have h2 : count_qmarks ")" = 0 := rfl
    omega
  · intro _
    simp [traverse_conditions]
  · intro condition rest ih1 ih3 h
    simp only [traverse_conditions, List.map_cons, List.sum_cons,
      List.length_append]
    rw [ih1 (fun k hk => h k (by simp [conditions_constraints, hk])),
        ih3 (fun k hk => h k (by simp [conditions_constraints, hk]))]

theorem count_qmarks_paginate (p : PaginateOptions) :
    count_qmarks p.traverse.1 = p.traverse.2.length := by
  obtain ⟨pp, off, ob⟩ := p
  cases off with
  | none =>
    cases ob with
    | none => simp [PaginateOptions.traverse, count_qmarks_append]; decide
    | some o =>
      cases o <;>
        (simp [PaginateOptions.traverse, count_qmarks_append, count_qmarks_sanitize];
         decide)
  | some o' =>
    cases ob with
    | none => simp [PaginateOptions.traverse, count_qmarks_append]; decide
    | some o =>
      cases o <;>
        (simp [PaginateOptions.traverse, count_qmarks_append, count_qmarks_sanitize];
         decide)

/-- **C6 (amended).** For every query tree in which no constraint column
contains the character `?` (in particular for sanitized column names), the
number of `?` placeholders in the SQL rendered by `prepare_sqlx_query`
equals the length of the returned parameter list.  (The restriction is
forced: constraint columns are spliced verbatim, see the counterexample.) -/
theorem prepare_sqlx_query_qmark_count (query : QueryTree)
    (h : ∀ k ∈ query.constraints, count_qmarks k.column = 0) :
    count_qmarks (prepare_sqlx_query query).1 =
      (prepare_sqlx_query query).2.length := by
  obtain ⟨rt, table, cond, pag⟩ := query
  have hsel : count_qmarks "SELECT * FROM " = 0 := rfl
  have hwh : count_qmarks " WHERE " = 0 := rfl
  have hsp : count_qmarks " " = 0 := rfl
  have hst := count_qmarks_sanitize table
  cases cond with
  | none =>
    cases pag with
    | none =>
      simp [prepare_sqlx_query, count_qmarks_append, hsel, hst]
    | some p =>
      simp [prepare_sqlx_query, count_qmarks_append, hsel, hst, hsp,
        count_qmarks_paginate p]
  | some c =>
    have hc : count_qmarks c.traverse.1 = c.traverse.2.length :=
      count_qmarks_condition_parts.1 c
        (by simpa [QueryTree.constraints] using h)
    cases pag with
    | none =>
      simp [prepare_sqlx_query, count_qmarks_append, hsel, hst, hwh, hc]
    | some p =>
      simp [prepare_sqlx_query, count_qmarks_append, hsel, hst, hwh, hsp, hc,
        count_qmarks_paginate p]

/-- Witness for C6's amended theorem: one equality constraint on `id` plus
pagination with an offset; three placeholders, three parameters. -/
theorem prepare_sqlx_query_qmark_count_witness :
    count_qmarks (prepare_sqlx_query
      ⟨.many, "todos",
        some (.single ⟨"id", .equal, .final (.number (.posInt 1))⟩),
        some ⟨10, some 20, none⟩⟩).1 =
    (prepare_sqlx_query
      ⟨.many, "todos",
        some (.single ⟨"id", .equal, .final (.number (.posInt 1))⟩),
        some ⟨10, some 20, none⟩⟩).2.length :=
  prepare_sqlx_query_qmark_count
    ⟨.many, "todos",
      some (.single ⟨"id", .equal, .final (.number (.posInt 1))⟩),
      some ⟨10, some 20, none⟩⟩
    (by decide)

/-- **C6 (counterexample).** The claim as stated quantifies over every
condition; with the (unsanitized) constraint column `"a?"` the rendered SQL
`SELECT * FROM todos WHERE "a?" = ?` has two `?` but only one parameter. -/
theorem prepare_sqlx_query_qmark_count_counterexample :
    count_qmarks (prepare_sqlx_query
      ⟨.many, "todos", some (.single ⟨"a?", .equal, .final .null⟩), none⟩).1 ≠
    (prepare_sqlx_query
      ⟨.many, "todos", some (.single ⟨"a?", .equal, .final .null⟩), none⟩).2.length := by
  have h : prepare_sqlx_query
      ⟨.many, "todos", some (.single ⟨"a?", .equal, .final .null⟩), none⟩ =
      ("SELECT * FROM todos WHERE \"a?\" = ?", [.null]) := by
    simp [prepare_sqlx_query, Condition.traverse, Constraint.traverse,
      ConstraintValue.traverse, FinalType.traverse, sanitize_identifier,
      Operator.display]
  rw [h]
  decide

/-! ### Render-site evaluations (C2) and evaluator operand order (C1) -/
/-- **C2 (failing evaluation).** Identifier sanitization is applied to the
table and to `ORDER BY` columns, but a constraint's column is spliced into
the rendered SQL verbatim: the whole injection string
`x; DROP TABLE todos --` lands in identifier position, while
`sanitize_identifier` would have reduced it to `xDROPTABLEtodos`.  (The
constraint's value, by contrast, only reaches the parameter list.) -/
theorem constraint_column_not_sanitized :
    prepare_sqlx_query
      ⟨.many, "todos",
        some (.single ⟨"x; DROP TABLE todos --", .equal, .final .null⟩),
        none⟩ =
      ("SELECT * FROM todos WHERE \"x; DROP TABLE todos --\" = ?", [.null]) ∧
    sanitize_identifier "x; DROP TABLE todos --" = "xDROPTABLEtodos" := by
  constructor
  · simp [prepare_sqlx_query, Condition.traverse, Constraint.traverse,
      ConstraintValue.traverse, FinalType.traverse, sanitize_identifier,
      Operator.display]
  · rfl

/-- **C1 (failing evaluation).** `Constraint::check` passes the constraint
value as the LEFT operand of `FinalType::compare` (the row value as the
right one), so the check of `id < 3` against the row `{id: 5}` evaluates
`3 < 5` and returns `true`, although `5 < 3` is false; and for `like` the
row text ends up as the pattern: checking `title like "h%o"` against
`{title: "hello"}` evaluates `sql_like "hello" "h%o"` and returns `false`,
although `sql_like "h%o" "hello"` is true. -/
theorem check_operand_order_flipped :
    Constraint.check ⟨"id", .lessThan, .final (.number (.posInt 3))⟩
        [("id", Json.number (.posInt 5))] = .ok true ∧
    FinalType.less_than (.number (.posInt 5)) (.number (.posInt 3)) = false ∧
    Constraint.check ⟨"title", .like, .final (.str "h%o")⟩
        [("title", Json.str "hello")] = .ok false ∧
    sql_like "h%o" "hello" = true := by
  refine ⟨rfl, rfl, ?_, by simp [sql_like, match_helper]⟩
  calc Constraint.check ⟨"title", .like, .final (.str "h%o")⟩
        [("title", Json.str "hello")]
      = .ok (sql_like "hello" "h%o") := rfl
    _ = .ok false := by
        rw [show sql_like "hello" "h%o" = false from by simp [sql_like, match_helper]]

/-! ### Dispatcher fan-out (C3, C4, C9), operation processor (C7), and panic characterization (C10) -/
theorem fanout_update_eq (table : String) (id : FinalType) (data : JsonObject)
    (channels : List ChannelEntry)
    (evs : List (String × OperationNotification)) (fails : List String)
    (h : fanout_update table id data channels = .ok (evs, fails)) :
    evs = channels.map (fun e => (e.key,
      if check_passes e.query data then OperationNotification.update table id data
      else OperationNotification.delete table id data)) ∧
    fails = (channels.filter (fun e => !e.send_ok)).map (fun e => e.key) := by
  induction channels generalizing evs fails with
  | nil =>
    simp only [fanout_update] at h
    cases h
    simp
  | cons e rest ih =>
    simp only [fanout_update] at h
    cases hc : e.query.check data with
    | error err => rw [hc] at h; simp [bind, Except.bind] at h
    | ok b =>
      rw [hc] at h
      cases hrec : fanout_update table id data rest with
      | error err => rw [hrec] at h; simp [bind, Except.bind] at h
      | ok p =>
        rw [hrec] at h
        simp only [bind, Except.bind] at h
        cases h
        obtain ⟨ih1, ih2⟩ := ih p.1 p.2 (by rw [hrec])
        constructor
        · rw [List.map_cons, ← ih1]
          have : (if check_passes e.query data then
              OperationNotification.update table id data
            else OperationNotification.delete table id data) =
              (if b then OperationNotification.update table id data
               else OperationNotification.delete table id data) := by
            cases b <;> simp [check_passes, hc]
          rw [this]
        · rw [List.filter_cons]
          cases hs : e.send_ok <;> simp [hs, ih2]

theorem fanout_single_eq (operation : OperationNotification) (data : JsonObject)
    (channels : List ChannelEntry)
    (evs : List (String × OperationNotification)) (fails : List String)
    (h : fanout_single operation data channels = .ok (evs, fails)) :
    evs = (channels.filter (fun e => check_passes e.query data)).map
      (fun e => (e.key, operation)) ∧
    fails = (channels.filter
      (fun e => check_passes e.query data && !e.send_ok)).map (fun e => e.key) := by
  induction channels generalizing evs fails with
  | nil =>
    simp only [fanout_single] at h
    cases h
    simp
  | cons e rest ih =>
    simp only [fanout_single] at h
    cases hc : e.query.check data with
    | error err => rw [hc] at h; simp [bind, Except.bind] at h
    | ok b =>
      rw [hc] at h
      cases hrec : fanout_single operation data rest with
      | error err => rw [hrec] at h; simp [bind, Except.bind] at h
      | ok p =>
        rw [hrec] at h
        simp only [bind, Except.bind] at h
        obtain ⟨ih1, ih2⟩ := ih p.1 p.2 (by rw [hrec])
        have hpass : check_passes e.query data = b := by
          cases b <;> simp [check_passes, hc]
        cases b with
        | false =>
          rw [if_neg Bool.false_ne_true] at h
          cases h
          simp only [List.filter_cons, hpass, Bool.false_and,
            if_neg Bool.false_ne_true]
          exact ⟨ih1, ih2⟩
        | true =>
          simp only [if_pos rfl] at h
          cases h
          rw [List.filter_cons, List.filter_cons]
          cases hs : e.send_ok <;> simp [hpass, hs, ih1, ih2]

theorem fanout_create_many_eq (objects : List JsonObject)
    (channels : List ChannelEntry)
    (evs : List (String × OperationNotification)) (fails : List String)
    (h : fanout_create_many objects channels = .ok (evs, fails)) :
    evs = (channels.filter
        (fun e => !(matched_rows e.query objects).isEmpty)).map
      (fun e => (e.key, OperationNotification.createMany "todos"
        (matched_rows e.query objects))) ∧
    fails = (channels.filter
      (fun e => !(matched_rows e.query objects).isEmpty && !e.send_ok)).map
        (fun e => e.key) := by
  induction channels generalizing evs fails with
  | nil =>
    simp only [fanout_create_many] at h
    cases h
    simp
  | cons e rest ih =>
    simp only [fanout_create_many] at h
    cases hc : check_rows e.query objects with
    | error err => rw [hc] at h; simp [bind, Except.bind] at h
    | ok matching =>
      rw [hc] at h
      cases hrec : fanout_create_many objects rest with
      | error err => rw [hrec] at h; simp [bind, Except.bind] at h
      | ok p =>
        rw [hrec] at h
        simp only [bind, Except.bind] at h
        obtain ⟨ih1, ih2⟩ := ih p.1 p.2 (by rw [hrec])
        have hm : matched_rows e.query objects = matching := by
          simp [matched_rows, hc, Except.toOption]
        cases hmt : matching.isEmpty with
        | true =>
          rw [hmt] at h
          rw [if_pos rfl] at h
          cases h
          simp only [List.filter_cons, hm, hmt, Bool.not_true, Bool.false_and,
            if_neg Bool.false_ne_true]
          exact ⟨ih1, ih2⟩
        | false =>
          rw [hmt] at h
          rw [if_neg Bool.false_ne_true] at h
          cases h
          rw [List.filter_cons, List.filter_cons]
          cases hs : e.send_ok <;> simp [hm, hmt, hs, ih1, ih2]

/-- **C4.** In an `Update` fan-out that completes without a panic, every
subscription receives exactly one event, in map-iteration order: the
`Update` notification itself when its query matches the new row, and
otherwise a synthetic `Delete` carrying the same table, the updated row's
id, and the new row as data. -/
theorem update_fanout_per_subscription (channels : List ChannelEntry)
    (table : String) (id : FinalType) (data : JsonObject)
    (evs : List (String × OperationNotification)) (fails : List String)
    (h : process_channel_event channels (.update table id data) = .ok (evs, fails)) :
    evs = channels.map (fun e => (e.key,
      if check_passes e.query data then OperationNotification.update table id data
      else OperationNotification.delete table id data)) :=
  (fanout_update_eq table id data channels evs fails h).1

/-- Witness for C4: one subscription filtering on `id = 2`; the update of row
`{id: 3}` does not match, so the subscription receives exactly the synthetic
delete with the same table, id `3` and the new row. -/
theorem update_fanout_per_subscription_witness :
    [("s1", OperationNotification.delete "todos" (.number (.posInt 3))
        [("id", Json.number (.posInt 3))])] =
    List.map (fun e : ChannelEntry => (e.key,
      if check_passes e.query [("id", Json.number (.posInt 3))] then
        OperationNotification.update "todos" (.number (.posInt 3))
          [("id", Json.number (.posInt 3))]
      else
        OperationNotification.delete "todos" (.number (.posInt 3))
          [("id", Json.number (.posInt 3))]))
      [⟨"s1", ⟨.many, "todos",
          some (.single ⟨"id", .equal, .final (.number (.posInt 2))⟩),
          none⟩, true⟩] :=
  update_fanout_per_subscription
    [⟨"s1", ⟨.many, "todos",
        some (.single ⟨"id", .equal, .final (.number (.posInt 2))⟩),
        none⟩, true⟩]
    "todos" (.number (.posInt 3)) [("id", Json.number (.posInt 3))]
    [("s1", OperationNotification.delete "todos" (.number (.posInt 3))
        [("id", Json.number (.posInt 3))])]
    [] rfl

/-- **C3 (failing evaluation).** A `CreateMany` notification for table
`"users"` whose single row matches the (unconditional) subscription produces
an event whose table field is the hardcoded string `"todos"`, not the
notification's table `"users"`. -/
theorem create_many_table_hardcoded :
    process_channel_event
      [⟨"s1", ⟨.many, "users", none, none⟩, true⟩]
      (.createMany "users" [[("id", Json.number (.posInt 1))]]) =
    .ok ([("s1", OperationNotification.createMany "todos"
        [[("id", Json.number (.posInt 1))]])], []) := rfl

theorem mem_prune_iff (channels : List ChannelEntry) (P : ChannelEntry → Bool)
    (msg : ChannelEntry → OperationNotification)
    (evs : List (String × OperationNotification)) (fails : List String)
    (hnodup : (channels.map (fun e => e.key)).Nodup)
    (hevs : evs = (channels.filter P).map (fun e => (e.key, msg e)))
    (hfails : fails = (channels.filter (fun e => P e && !e.send_ok)).map
      (fun e => e.key)) :
    fails.Nodup ∧
    ∀ key, key ∈ fails ↔
      ∃ e ∈ channels, e.key = key ∧ e.send_ok = false ∧ key ∈ evs.map Prod.fst := by
  subst hevs hfails
  constructor
  · exact hnodup.sublist ((List.filter_sublist _).map _)
  · intro key
    constructor
    · intro hmem
      obtain ⟨e, hef, rfl⟩ := List.mem_map.mp hmem
      obtain ⟨he, hPe⟩ := List.mem_filter.mp hef
      obtain ⟨hP, hsend⟩ := Bool.and_eq_true_iff.mp hPe
      refine ⟨e, he, rfl, by simpa using hsend, ?_⟩
      rw [List.map_map]
      exact List.mem_map.mpr ⟨e, List.mem_filter.mpr ⟨he, hP⟩, rfl⟩
    · rintro ⟨e, he, rfl, hsend, hmem⟩
      rw [List.map_map] at hmem
      obtain ⟨e', he'f, hkey⟩ := List.mem_map.mp hmem
      obtain ⟨he', hPe'⟩ := List.mem_filter.mp he'f
      have : e' = e := List.inj_on_of_nodup_map hnodup he' he hkey
      subst this
      exact List.mem_map.mpr
        ⟨e', List.mem_filter.mpr ⟨he', by simp [hPe', hsend]⟩, rfl⟩

/-- **C9.** For any fan-out that completes without a panic, over a channel
map with distinct keys: the pruning list contains exactly the keys of
subscriptions to which a send was attempted and whose send failed, each at
most once; keys whose sends succeeded, or to which nothing was sent, are
absent. -/
theorem prune_list_exact (channels : List ChannelEntry)
    (op : OperationNotification)
    (evs : List (String × OperationNotification)) (fails : List String)
    (hnodup : (channels.map (fun e => e.key)).Nodup)
    (h : process_channel_event channels op = .ok (evs, fails)) :
    fails.Nodup ∧
    ∀ key, key ∈ fails ↔
      ∃ e ∈ channels, e.key = key ∧ e.send_ok = false ∧ key ∈ evs.map Prod.fst := by
  cases op with
  | create table data =>
    obtain ⟨h1, h2⟩ := fanout_single_eq (.create table data) data channels evs fails h
    exact mem_prune_iff channels (fun e => check_passes e.query data)
      (fun _ => .create table data) evs fails hnodup h1 h2
  | delete table id data =>
    obtain ⟨h1, h2⟩ := fanout_single_eq (.delete table id data) data channels evs fails h
    exact mem_prune_iff channels (fun e => check_passes e.query data)
      (fun _ => .delete table id data) evs fails hnodup h1 h2
  | update table id data =>
    obtain ⟨h1, h2⟩ := fanout_update_eq table id data channels evs fails h
    refine mem_prune_iff channels (fun _ => true)
      (fun e => if check_passes e.query data then .update table id data
        else .delete table id data) evs fails hnodup ?_ ?_
    · simpa [List.filter_true] using h1
    · simpa [Bool.true_and] using h2
  | createMany table data =>
    obtain ⟨h1, h2⟩ := fanout_create_many_eq data channels evs fails h
    exact mem_prune_iff channels
      (fun e => !(matched_rows e.query data).isEmpty)
      (fun e => .createMany "todos" (matched_rows e.query data))
      evs fails hnodup h1 h2

/-- Witness for C9: two unconditional subscriptions, the first with a failing
channel; after the `Create` fan-out the pruning list is exactly `["a"]`. -/
theorem prune_list_exact_witness :
    (["a"] : List String).Nodup ∧
    ∀ key, key ∈ (["a"] : List String) ↔
      ∃ e ∈ ([⟨"a", ⟨.many, "t", none, none⟩, false⟩,
              ⟨"b", ⟨.many, "t", none, none⟩, true⟩] : List ChannelEntry),
        e.key = key ∧ e.send_ok = false ∧
        key ∈ ([("a", OperationNotification.create "t" []),
                ("b", OperationNotification.create "t" [])] :
            List (String × OperationNotification)).map Prod.fst :=
  prune_list_exact
    [⟨"a", ⟨.many, "t", none, none⟩, false⟩,
     ⟨"b", ⟨.many, "t", none, none⟩, true⟩]
    (.create "t" [])
    [("a", OperationNotification.create "t" []),
     ("b", OperationNotification.create "t" [])]
    ["a"] (by simp) rfl

/-- **C7.** An `Update` or `Delete` granular operation whose statement
returns no row yields `none` — no notification is produced, and the dispatch
step fans nothing out; when a row is returned, the processor yields `some`
notification carrying the operation's table, the original id, and the
returned row as data. -/
theorem granular_not_found_behavior (table : String) (id : FinalType)
    (data : JsonObject) (db : DbResponse) (channels : List ChannelEntry) :
    (db.fetched_optional = none →
      granular_operation_sqlite (.update table id data) db = none ∧
      granular_operation_sqlite (.delete table id) db = none ∧
      process_operation (.update table id data) db channels = .ok ([], []) ∧
      process_operation (.delete table id) db channels = .ok ([], [])) ∧
    (∀ row, db.fetched_optional = some row →
      granular_operation_sqlite (.update table id data) db =
        some (.update table id row) ∧
      granular_operation_sqlite (.delete table id) db =
        some (.delete table id row)) := by
  obtain ⟨one, all, opt⟩ := db
  constructor
  · intro hnone
    simp only at hnone
    subst hnone
    exact ⟨rfl, rfl, rfl, rfl⟩
  · intro row hsome
    simp only at hsome
    subst hsome
    exact ⟨rfl, rfl⟩

theorem constraint_check_error_iff (c : Constraint) (object : JsonObject) :
    (c.check object).isOk = false ↔ c.panics_on object := by
  obtain ⟨column, operator, value⟩ := c
  simp only [Constraint.check, Constraint.panics_on]
  cases hget : object.get column with
  | none => simp [Except.isOk, Except.toBool]
  | some v =>
    cases htf : FinalType.try_from v with
    | none => simp [Except.isOk, Except.toBool, htf]
    | some f =>
      cases value with
      | final ft =>
        cases operator <;>
          simp [ConstraintValue.compare, FinalType.compare, Except.isOk,
            Except.toBool, htf]
      | list l =>
        cases operator <;>
          simp [ConstraintValue.compare, FinalType.compare, Except.isOk,
            Except.toBool, htf]

theorem constraint_check_ok_of_safe (c : Constraint) (object : JsonObject)
    (h : c.safe_for object) : (c.check object).isOk = true := by
  have hne : ¬ c.panics_on object := by
    obtain ⟨⟨v, f, hget, htf⟩, hshape⟩ := h
    rintro (hcol | ⟨v', hv', htf'⟩ | ⟨hop, f', hfin⟩ | ⟨hop, l, hlist⟩)
    · rw [hget] at hcol; cases hcol
    · rw [hget] at hv'; cases hv'; rw [htf] at htf'; cases htf'
    · obtain ⟨l, hl⟩ := hshape.mp hop
      rw [hl] at hfin; cases hfin
    · exact hop (hshape.mpr ⟨l, hlist⟩)
  have hnotfalse := (constraint_check_error_iff c object).not.mpr hne
  cases hres : (c.check object).isOk with
  | true => rfl
  | false => exact absurd hres hnotfalse

mutual

theorem condition_check_ok_of_safe (c : Condition) (object : JsonObject)
    (h : ∀ k ∈ c.constraints, k.safe_for object) :
    (c.check object).isOk = true := by
  match c with
  | .single constraint =>
    exact constraint_check_ok_of_safe constraint object
      (h constraint (by simp [Condition.constraints]))
  | .and conditions =>
    exact check_and_ok_of_safe conditions object
      (by simpa [Condition.constraints] using h)
  | .or conditions =>
    exact check_or_ok_of_safe conditions object
      (by simpa [Condition.constraints] using h)

theorem check_and_ok_of_safe (cs : List Condition) (object : JsonObject)
    (h : ∀ k ∈ conditions_constraints cs, k.safe_for object) :
    (Condition.check_and cs object).isOk = true := by
  match cs with
  | [] => rfl
  | c :: rest =>
    have h1 := condition_check_ok_of_safe c object
      (fun k hk => h k (by simp [conditions_constraints, hk]))
    have h2 := check_and_ok_of_safe rest object
      (fun k hk => h k (by simp [conditions_constraints, hk]))
    show (Condition.check_and (c :: rest) object).isOk = true
    rw [Condition.check_and]
    cases hc : c.check object with
    | error err => rw [hc] at h1; simp [Except.isOk, Except.toBool] at h1
    | ok b =>
      cases b with
      | true => simpa [bind, Except.bind] using h2
      | false => simp [bind, Except.bind, Except.isOk, Except.toBool]

theorem check_or_ok_of_safe (cs : List Condition) (object : JsonObject)
    (h : ∀ k ∈ conditions_constraints cs, k.safe_for object) :
    (Condition.check_or cs object).isOk = true := by
  match cs with
  | [] => rfl
  | c :: rest =>
    have h1 := condition_check_ok_of_safe c object
      (fun k hk => h k (by simp [conditions_constraints, hk]))
    have h2 := check_or_ok_of_safe rest object
      (fun k hk => h k (by simp [conditions_constraints, hk]))
    show (Condition.check_or (c :: rest) object).isOk = true
    rw [Condition.check_or]
    cases hc : c.check object with
    | error err => rw [hc] at h1; simp [Except.isOk, Except.toBool] at h1
    | ok b =>
      cases b with
      | true => simp [bind, Except.bind, Except.isOk, Except.toBool]
      | false => simpa [bind, Except.bind] using h2

end

/-- **C10.** `check` is partial exactly as described: a constraint check
panics (models: returns `.error`) precisely when its column is absent, or
the row value there is a JSON array/object, or `in` is paired with a single
scalar, or a list value is paired with an operator other than `in`; and
under the claim's precondition on every constraint of a condition or query
tree, no panic branch is reachable. -/
theorem check_panic_characterization :
    (∀ (c : Constraint) (object : JsonObject),
      (c.check object).isOk = false ↔ c.panics_on object) ∧
    (∀ (c : Condition) (object : JsonObject),
      (∀ k ∈ c.constraints, k.safe_for object) → (c.check object).isOk = true) ∧
    (∀ (query : QueryTree) (object : JsonObject),
      (∀ k ∈ query.constraints, k.safe_for object) →
      (query.check object).isOk = true) := by
  refine ⟨constraint_check_error_iff, condition_check_ok_of_safe, ?_⟩
  intro query object h
  obtain ⟨rt, table, cond, pag⟩ := query
  cases cond with
  | none => rfl
  | some c =>
    exact condition_check_ok_of_safe c object
      (by simpa [QueryTree.constraints] using h)

end RealTimeSqlx
